import Mathlib

/-!
Verification of the financial research assistant (document QA + web search
agent) against its natural-language specification.

The Python source is shallowly embedded: strings are lists of characters,
Python dictionaries become structures, exceptions become `Except`, and the
external effects (embedding model, vector store, LLM, HTTP transport) are
parameters supplied to the embedded functions.
-/

/-- Strings of the embedded program: Python `str` as a list of characters. -/
abbrev Str := List Char

/-- Turn a Lean string literal into an embedded string. -/
def str (s : String) : Str := s.toList

/-- Python `str.lower()` (ASCII is all the source uses). -/
def lower (s : Str) : Str := s.map Char.toLower

/-- Python `needle in hay` substring test. -/
def strContains : Str → Str → Bool
  | [], needle => needle.isEmpty
  | c :: t, needle => needle.isPrefixOf (c :: t) || strContains t needle

namespace Agent

/-! ### `FinancialAgent._route_tools` (src/agent.py lines 119-154) -/

/-- `current_data_keywords` from `_route_tools`. -/
def current_data_keywords : List Str :=
  [str "current", str "today", str "now", str "latest stock", str "market cap",
   str "compare to", str "versus", str "vs", str "microsoft", str "google",
   str "competitor", str "industry average", str "recent news"]

/-- `document_only_keywords` from `_route_tools`. -/
def document_only_keywords : List Str :=
  [str "risk factor", str "10-k", str "filing", str "annual report",
   str "management discussion", str "md&a", str "financial statement",
   str "balance sheet", str "income statement"]

/-- `needs_current_data = any(kw in query_lower for kw in current_data_keywords)`. -/
def needs_current_data (query : Str) : Bool :=
  current_data_keywords.any (fun kw => strContains (lower query) kw)

/-- `mentions_document = any(kw in query_lower for kw in document_only_keywords)`. -/
def mentions_document (query : Str) : Bool :=
  document_only_keywords.any (fun kw => strContains (lower query) kw)

/-- `FinancialAgent._route_tools`: deterministic keyword routing. -/
def route_tools (query : Str) : List Str :=
  if needs_current_data query && mentions_document query then
    [str "document_qa", str "tavily"]
  else if needs_current_data query && !mentions_document query then
    [str "tavily"]
  else
    [str "document_qa"]

/-! ### `FinancialAgent._create_plan` (src/agent.py lines 105-117) -/

/-- Keywords the planner uses for "current" intent (a different list from the
router's `current_data_keywords`). -/
def plan_current_keywords : List Str :=
  [str "current", str "today", str "vs", str "compare", str "microsoft"]

/-- Keywords the planner uses for "document" intent (a different list from the
router's `document_only_keywords`). -/
def plan_document_keywords : List Str :=
  [str "risk", str "10-k", str "r&d", str "margin"]

/-- `FinancialAgent._create_plan`: one-line plan text from keyword tests. -/
def create_plan (query : Str) : Str :=
  let has_current := plan_current_keywords.any (fun kw => strContains (lower query) kw)
  let has_document := plan_document_keywords.any (fun kw => strContains (lower query) kw)
  if has_current && has_document then
    str "Plan: (1) Query 10-K for historical data (2) Search web for current data (3) Synthesize both sources"
  else if has_current then
    str "Plan: Search web for current market information"
  else
    str "Plan: Query Apple's 10-K filing for requested information"

end Agent

/-! ### Citations and tool result shapes (the result dictionaries of the source) -/

/-- A detected cross-reference (`_chunk_document`, Bonus 4): match group 1
(`type`), group 2 (`target`) and the whole matched substring (`full_text`). -/
structure CrossRef where
  kind : Str
  target : Str
  full_text : Str
deriving DecidableEq, Repr

/-- A citation dictionary as produced by `DocumentQA._extract_citations` and
`TavilySearch._format_results` (both shapes share the same keys; absent keys
are `none`). -/
structure Citation where
  source_type : Str
  text : Str
  «section» : Option Str
  page : Option Str
  cross_references : List CrossRef
  url : Option Str
  title : Option Str
deriving DecidableEq, Repr

/-- Result dictionary of `DocumentQA.query`. -/
structure DocResult where
  answer : Str
  citations : List Citation
deriving DecidableEq, Repr

/-- Result dictionary of `TavilySearch.search`. -/
structure SearchResult where
  answer : Str
  sources : List Citation
deriving DecidableEq, Repr

namespace Tavily

/-! ### `TavilySearch.search` (src/tools/tavily_search.py lines 23-83) -/

/-- One record of the provider's `results` list: `{content, url, title}`. -/
structure RawResult where
  content : Str
  url : Option Str
  title : Option Str
deriving DecidableEq, Repr

/-- Outcome of the HTTP POST in `TavilySearch.search`: a response with a
status code and parsed body, a timeout, a `requests.RequestException`, or any
other exception (each `Str` is the Python `str(e)` of the exception). -/
inductive HttpOutcome where
  | resp (status : Nat) (results : List RawResult)
  | timeout
  | reqError (msg : Str)
  | otherError (msg : Str)
deriving DecidableEq, Repr

/-- Stand-in for the message of the `requests.HTTPError` that
`raise_for_status()` raises on a 4xx/5xx status. -/
def statusErrorText (status : Nat) : Str :=
  str (toString status) ++ str " Error"

/-- `TavilySearch._format_results`: snippet list plus a summary built from the
top three non-empty contents. -/
def format_results (results : List RawResult) : SearchResult :=
  let sources := results.map (fun r =>
    { source_type := str "web"
      text := r.content.take 200 ++ str "..."
      «section» := none
      page := none
      cross_references := []
      url := r.url
      title := r.title : Citation })
  let answer_parts := (results.take 3).enum.filterMap (fun p =>
    if p.2.content.isEmpty then none
    else some (str "[Source " ++ str (toString (p.1 + 1)) ++ str "]: " ++ p.2.content.take 300))
  let answer := if answer_parts.isEmpty then str "No results found."
                else List.intercalate (str "\n\n") answer_parts
  { answer := answer, sources := sources }

/-- `TavilySearch.search`: every failure mode degrades to a returned result
(the function is total; nothing propagates to the caller). -/
def search (outcome : HttpOutcome) : SearchResult :=
  match outcome with
  | .resp status results =>
      if status = 429 then
        { answer := str "Rate limit exceeded for web search. Please try again later."
          sources := [] }
      else if 400 ≤ status then
        -- raise_for_status() raises requests.HTTPError, caught by the
        -- RequestException handler below.
        { answer := str "Web search error: " ++ statusErrorText status, sources := [] }
      else
        format_results results
  | .timeout =>
      { answer := str "Web search timed out. Please try again.", sources := [] }
  | .reqError msg =>
      { answer := str "Web search error: " ++ msg, sources := [] }
  | .otherError msg =>
      { answer := str "Error performing web search: " ++ msg, sources := [] }

end Tavily

namespace DocQA

/-! ### `DocumentQA` (src/tools/document_qa.py) -/

/-- Python `\s` whitespace (ASCII range, which is all the source's text uses). -/
def isPySpace (c : Char) : Bool :=
  c = ' ' || c = '\t' || c = '\n' || c = '\r' || c = '\x0b' || c = '\x0c'

/-- Python `str.split()`: split on whitespace runs, dropping empty pieces. -/
def splitWords : Str → List Str
  | [] => []
  | c :: cs =>
    if isPySpace c then splitWords cs
    else (c :: cs.takeWhile (fun d => !isPySpace d))
           :: splitWords (cs.dropWhile (fun d => !isPySpace d))
termination_by s => s.length
decreasing_by
  · simp
  · have h : (cs.dropWhile (fun d => !isPySpace d)).length ≤ cs.length :=
      (List.dropWhile_suffix (fun d => !isPySpace d)).length_le
    simp; omega

/-- A section dictionary produced by `_identify_sections` / `_extract_tables`:
`{name, content, page, type}` (`page` is an int or `None`). -/
structure Section where
  name : Str
  content : Str
  page : Option Nat
  «type» : Str
deriving DecidableEq, Repr

/-- A chunk dictionary produced by `_chunk_document`. -/
structure Chunk where
  text : Str
  «section» : Str
  page : Option Nat
  «type» : Str
  chunk_id : Nat
  cross_references : List CrossRef
deriving DecidableEq, Repr

/-- ASCII letter, for `[A-Z]+` under `(?i)`. -/
def isAsciiLetter (c : Char) : Bool :=
  ('a' ≤ c && c ≤ 'z') || ('A' ≤ c && c ≤ 'Z')

/-- The alternatives of the cross-reference pattern
`(?i)(see|refer to|as discussed in|note|item|section)`, in the order the
regex engine tries them. -/
def crossRefKeywords : List Str :=
  [str "see", str "refer to", str "as discussed in", str "note", str "item", str "section"]

/-- Case-insensitively match the literal `kw` as a prefix of `cs`, returning
the matched input characters (original case) and the remainder. -/
def matchKwCI : Str → Str → Option (Str × Str)
  | [], cs => some ([], cs)
  | _ :: _, [] => none
  | k :: ks, c :: cs =>
    if c.toLower = k then (matchKwCI ks cs).map (fun p => (c :: p.1, p.2)) else none

/-- First keyword alternative matching at the head of `cs` (regex alternation
is ordered, leftmost alternative first; no two alternatives of this pattern
can match at the same position, so no cross-alternative backtracking arises). -/
def matchAlternative : List Str → Str → Option (Str × Str)
  | [], _ => none
  | kw :: kws, cs =>
    match matchKwCI kw cs with
    | some p => some p
    | none => matchAlternative kws cs

/-- One attempted match of the full pattern
`(?i)(see|refer to|as discussed in|note|item|section)\s+(\d+|[A-Z]+)` at the
head of `cs`: the keyword, then one-or-more whitespace (greedy; the target
classes are disjoint from whitespace so giving characters back cannot help),
then a maximal digit run, or else a maximal letter run. Returns the record
`_chunk_document` builds from match groups 1, 2 and 0, plus the rest of the
input after the match. -/
def crossRefTail (kw rest : Str) : Option (CrossRef × Str) :=
  if (rest.takeWhile isPySpace).isEmpty then none
  else if !((rest.dropWhile isPySpace).takeWhile Char.isDigit).isEmpty then
    some (⟨kw, (rest.dropWhile isPySpace).takeWhile Char.isDigit,
           kw ++ rest.takeWhile isPySpace
              ++ (rest.dropWhile isPySpace).takeWhile Char.isDigit⟩,
          (rest.dropWhile isPySpace).dropWhile Char.isDigit)
  else if !((rest.dropWhile isPySpace).takeWhile isAsciiLetter).isEmpty then
    some (⟨kw, (rest.dropWhile isPySpace).takeWhile isAsciiLetter,
           kw ++ rest.takeWhile isPySpace
              ++ (rest.dropWhile isPySpace).takeWhile isAsciiLetter⟩,
          (rest.dropWhile isPySpace).dropWhile isAsciiLetter)
  else none

/-- See `crossRefTail` for the part after the keyword alternation. -/
def matchCrossRefAt (cs : Str) : Option (CrossRef × Str) :=
  match matchAlternative crossRefKeywords cs with
  | none => none
  | some (kw, rest) => crossRefTail kw rest

theorem matchKwCI_consumes {kw cs m rest} (h : matchKwCI kw cs = some (m, rest)) :
    m.length = kw.length ∧ m ++ rest = cs := by
  induction kw generalizing cs m rest with
  | nil =>
    simp only [matchKwCI, Option.some.injEq, Prod.mk.injEq] at h
    obtain ⟨h1, h2⟩ := h
    subst h1; subst h2; simp
  | cons k ks ih =>
    cases cs with
    | nil => simp [matchKwCI] at h
    | cons c cs' =>
      simp only [matchKwCI] at h
      split at h
      · cases hm : matchKwCI ks cs' with
        | none => rw [hm] at h; simp at h
        | some p =>
          obtain ⟨p1, p2⟩ := p
          rw [hm] at h
          simp only [Option.map_some', Option.some.injEq, Prod.mk.injEq] at h
          obtain ⟨h1, h2⟩ := h
          subst h1; subst h2
          obtain ⟨hl, he⟩ := ih hm
          exact ⟨by simp [hl], by simp [he]⟩
      · simp at h

theorem matchAlternative_consumes {kws : List Str} {cs m rest : Str}
    (h : matchAlternative kws cs = some (m, rest)) :
    m ++ rest = cs ∧ (m.length = 0 → ∃ kw ∈ kws, kw.length = 0) := by
  induction kws with
  | nil => simp [matchAlternative] at h
  | cons kw kws ih =>
    simp only [matchAlternative] at h
    cases hm : matchKwCI kw cs with
    | some p =>
      rw [hm] at h
      cases h
      obtain ⟨hl, he⟩ := matchKwCI_consumes hm
      exact ⟨he, fun h0 => ⟨kw, by simp, by omega⟩⟩
    | none =>
      rw [hm] at h
      obtain ⟨he, h0⟩ := ih h
      refine ⟨he, fun hz => ?_⟩
      obtain ⟨kw', hkw', hz'⟩ := h0 hz
      exact ⟨kw', by simp [hkw'], hz'⟩

theorem crossRefTail_shrinks {kw rest1 : Str} {r : CrossRef} {rest : Str}
    (h : crossRefTail kw rest1 = some (r, rest)) : rest.length ≤ rest1.length := by
  have hdw : (rest1.dropWhile isPySpace).length ≤ rest1.length :=
    (List.dropWhile_suffix isPySpace).length_le
  have hdd : ((rest1.dropWhile isPySpace).dropWhile Char.isDigit).length
      ≤ (rest1.dropWhile isPySpace).length :=
    (List.dropWhile_suffix Char.isDigit).length_le
  have hdl : ((rest1.dropWhile isPySpace).dropWhile isAsciiLetter).length
      ≤ (rest1.dropWhile isPySpace).length :=
    (List.dropWhile_suffix isAsciiLetter).length_le
  unfold crossRefTail at h
  split at h
  · simp at h
  · split at h
    · simp only [Option.some.injEq, Prod.mk.injEq] at h
      obtain ⟨-, h2⟩ := h
      subst h2; omega
    · split at h
      · simp only [Option.some.injEq, Prod.mk.injEq] at h
        obtain ⟨-, h2⟩ := h
        subst h2; omega
      · simp at h

theorem matchCrossRefAt_shrinks {cs : Str} {r : CrossRef} {rest : Str}
    (h : matchCrossRefAt cs = some (r, rest)) : rest.length < cs.length := by
  unfold matchCrossRefAt at h
  cases ha : matchAlternative crossRefKeywords cs with
  | none => rw [ha] at h; simp at h
  | some p =>
    obtain ⟨kw, rest1⟩ := p
    rw [ha] at h
    obtain ⟨he, hz⟩ := matchAlternative_consumes ha
    have hkw : 0 < kw.length := by
      by_contra h0
      push_neg at h0
      obtain ⟨kw', hmem, hlen⟩ := hz (by omega)
      simp only [crossRefKeywords, List.mem_cons, List.not_mem_nil, or_false] at hmem
      rcases hmem with h' | h' | h' | h' | h' | h'
        <;> subst h' <;> revert hlen <;> decide
    have hrest1 : rest1.length + kw.length = cs.length := by
      rw [← he]; simp; omega
    have := crossRefTail_shrinks h
    omega

/-- `re.finditer` over the whole text: scan left to right, emitting
non-overlapping matches and resuming after each match. The `fuel` argument
makes the recursion structural; `matchCrossRefAt_shrinks` shows every step
strictly shortens the input, so fuel equal to the input length suffices. -/
def findCrossRefsGo : Nat → Str → List CrossRef
  | 0, _ => []
  | _, [] => []
  | fuel + 1, c :: cs =>
    match matchCrossRefAt (c :: cs) with
    | some (r, rest) => r :: findCrossRefsGo fuel rest
    | none => findCrossRefsGo fuel cs

/-- See `findCrossRefsGo`. -/
def findCrossRefs (s : Str) : List CrossRef := findCrossRefsGo s.length s

/-- `chunk_size = 500` in `_chunk_document` (words). -/
def chunk_size : Nat := 500

/-- `overlap = 100` in `_chunk_document`. -/
def overlap : Nat := 100

/-- Python `range(0, stop, step)` for `step > 0`. -/
def pyRangeStep (stop step : Nat) : List Nat :=
  (List.range ((stop + step - 1) / step)).map (· * step)

/-- `' '.join(words)`. -/
def joinSpace (ws : List Str) : Str := List.intercalate (str " ") ws

/-- The text-section loop of `_chunk_document`: one iteration per window
start, skipping windows of fewer than 50 words; `curId` is `len(chunks)`,
the id the next appended chunk receives. -/
def text_chunks (name : Str) (page : Option Nat) (crossRefs : List CrossRef)
    (words : List Str) : Nat → List Nat → List Chunk
  | _, [] => []
  | curId, i :: is =>
    if ((words.drop i).take chunk_size).length < 50 then
      text_chunks name page crossRefs words curId is
    else
      { text := joinSpace ((words.drop i).take chunk_size)
        «section» := name
        page := page
        «type» := str "text"
        chunk_id := curId
        cross_references := crossRefs.filter
          (fun r => strContains (joinSpace ((words.drop i).take chunk_size)) r.full_text) }
        :: text_chunks name page crossRefs words (curId + 1) is

/-- One iteration of the section loop of `_chunk_document`, with `startId`
the value of `len(chunks)` on entry. -/
def section_chunks (startId : Nat) (s : Section) : List Chunk :=
  if s.«type» = str "table" then
    [{ text := s.content
       «section» := s.name
       page := s.page
       «type» := str "table"
       chunk_id := startId
       cross_references := findCrossRefs s.content }]
  else
    text_chunks s.name s.page (findCrossRefs s.content) (splitWords s.content) startId
      (pyRangeStep (splitWords s.content).length (chunk_size - overlap))

/-- The section loop of `_chunk_document`, accumulating the global chunk
list (`startId = len(chunks)` before the current section). -/
def chunk_document_go : Nat → List Section → List Chunk
  | _, [] => []
  | startId, s :: ss =>
    section_chunks startId s
      ++ chunk_document_go (startId + (section_chunks startId s).length) ss

/-- `DocumentQA._chunk_document` (src/tools/document_qa.py lines 239-304). -/
def chunk_document (sections : List Section) : List Chunk :=
  chunk_document_go 0 sections

/-! ### `DocumentQA.initialize` / `_process_document` (lines 60-112) -/

/-- An entry of the persisted ChromaDB collection: id, embedding vector,
document text, and the metadata record built in `_process_document`. -/
structure IndexEntry (V : Type) where
  id : Str
  embedding : V
  document : Str
  «section» : Str
  page : Str
  «type» : Str
  chunk_id : Str
deriving DecidableEq, Repr

/-- The persisted state `DocumentQA` sees: `self.collection` is `None` when
`get_collection` failed, otherwise the list of stored entries. -/
structure QAState (V : Type) where
  collection : Option (List (IndexEntry V))
deriving DecidableEq, Repr

/-- `str(chunk['page']) if chunk['page'] else 'unknown'` (Python truthiness:
`None` and `0` are both falsy). -/
def page_str : Option Nat → Str
  | some n => if n = 0 then str "unknown" else str (toString n)
  | none => str "unknown"

/-- The id/metadata record `_process_document` stores for chunk number `i`. -/
def entry_of {V : Type} (embed : Str → V) (i : Nat) (c : Chunk) : IndexEntry V :=
  { id := str "chunk_" ++ str (toString i)
    embedding := embed c.text
    document := c.text
    «section» := c.«section»
    page := page_str c.page
    «type» := c.«type»
    chunk_id := str (toString i) }

/-- `DocumentQA._process_document`: chunk the parsed sections, fail if no
chunks were produced, create the collection when absent, embed every chunk
text and add the entries. The embedding model is the parameter `embed`
(deterministic per text, applied elementwise as the batch `encode` is). -/
def process_document {V : Type} (embed : Str → V) (sections : List Section)
    (st : QAState V) : Except Str (QAState V) :=
  if (chunk_document sections).length = 0 then
    .error (str "No chunks created from document. Check if file is valid 10-K HTML.")
  else
    .ok ⟨some ((match st.collection with | some c => c | none => [])
      ++ ((chunk_document sections).enum.map (fun p => entry_of embed p.1 p.2)))⟩

/-- The `initialize` method of `DocumentQA` (lines 60-67): skip ingestion when
the persisted collection exists and is non-empty, otherwise process the
document. -/
def initDoc {V : Type} (embed : Str → V) (sections : List Section)
    (st : QAState V) : Except Str (QAState V) :=
  match st.collection with
  | some c => if 0 < c.length then .ok st else process_document embed sections st
  | none => process_document embed sections st

/-! ### `DocumentQA.query` / `_extract_citations` (lines 330-470) -/

/-- The metadata record returned by the store for one retrieved chunk. -/
structure Meta where
  «section» : Str
  page : Str
  «type» : Str
  chunk_id : Str
deriving DecidableEq, Repr

/-- A chunk dictionary as rebuilt inside `query` from one retrieved document
and its metadata (note: no `cross_references` key). -/
structure QChunk where
  text : Str
  «section» : Str
  page : Str
  «type» : Str
  chunk_id : Nat
deriving DecidableEq, Repr

/-- One attempted match of `\[Chunk (\d+)\]` at the head of the input:
the literal `[Chunk ` then a maximal non-empty digit run then `]`.
Returns the digit group and the rest of the input after the match. -/
def matchChunkRefAt (cs : Str) : Option (Str × Str) :=
  if (str "[Chunk ").isPrefixOf cs then
    if ((cs.drop 7).takeWhile Char.isDigit).isEmpty then none
    else if ((cs.drop 7).dropWhile Char.isDigit).head? = some ']' then
      some ((cs.drop 7).takeWhile Char.isDigit, ((cs.drop 7).dropWhile Char.isDigit).tail)
    else none
  else none

theorem matchChunkRefAt_shrinks {cs ds rest : Str}
    (h : matchChunkRefAt cs = some (ds, rest)) : rest.length < cs.length := by
  unfold matchChunkRefAt at h
  split at h
  · split at h
    · simp at h
    · split at h
      · simp only [Option.some.injEq, Prod.mk.injEq] at h
        obtain ⟨-, h2⟩ := h
        subst h2
        rename_i hne hhead
        have h1 : ((cs.drop 7).dropWhile Char.isDigit).length ≤ (cs.drop 7).length :=
          (List.dropWhile_suffix Char.isDigit).length_le
        have h2 : (cs.drop 7).length = cs.length - 7 := by simp
        have h3 : (cs.drop 7).dropWhile Char.isDigit ≠ [] := by
          intro h0; rw [h0] at hhead; simp at hhead
        have h4 : ((cs.drop 7).dropWhile Char.isDigit).tail.length
            = ((cs.drop 7).dropWhile Char.isDigit).length - 1 := by simp
        have h5 : 0 < ((cs.drop 7).dropWhile Char.isDigit).length :=
          List.length_pos.mpr h3
        have h6 : (cs.drop 7) ≠ [] := by
          intro h0; rw [h0] at h3; simp [List.dropWhile] at h3
        have h7 : 0 < (cs.drop 7).length := List.length_pos.mpr h6
        omega
      · simp at h
  · simp at h

/-- `re.findall(r'\[Chunk (\d+)\]', answer)`: left-to-right, non-overlapping,
collecting the digit group of each match. The `fuel` argument makes the
recursion structural; `matchChunkRefAt_shrinks` shows every step strictly
shortens the input, so fuel equal to the input length suffices. -/
def findChunkRefsGo : Nat → Str → List Str
  | 0, _ => []
  | _, [] => []
  | fuel + 1, c :: cs =>
    match matchChunkRefAt (c :: cs) with
    | some (ds, rest) => ds :: findChunkRefsGo fuel rest
    | none => findChunkRefsGo fuel cs

/-- See `findChunkRefsGo`. -/
def find_chunk_refs (s : Str) : List Str := findChunkRefsGo s.length s

/-- Python `int(...)` on a non-empty digit string. -/
def digits_to_nat (ds : Str) : Nat :=
  ds.foldl (fun a c => a * 10 + (c.toNat - '0'.toNat)) 0

/-- `DocumentQA._extract_citations` (lines 434-470): find the `[Chunk X]`
tags in the answer, deduplicate (Python iterates `set(chunk_refs)`; the claims
we settle are insensitive to the iteration order, which `set` leaves
unspecified), and keep only tags whose index is inside the retrieved chunk
list. `chunk.get('cross_references', [])` always yields the default `[]`
because the chunk dictionaries rebuilt in `query` carry no such key.
`cite_of` is the citation dictionary appended for one cited chunk. -/
def cite_of (c : QChunk) : Citation :=
  { source_type := str "document"
    text := if 200 < c.text.length then c.text.take 200 ++ str "..." else c.text
    «section» := some c.«section»
    page := some c.page
    cross_references := []
    url := none
    title := none }

def extract_citations (answer : Str) (chunks : List QChunk) : List Citation :=
  ((find_chunk_refs answer).dedup).filterMap (fun ref =>
    match chunks.get? (digits_to_nat ref) with
    | some c => some (cite_of c)
    | none => none)

/-- The external effects `DocumentQA.query` invokes: query embedding, the
ChromaDB similarity search (returning `documents[0]` and `metadatas[0]`), the
system-prompt file read, and the generative model. Each may fail with a
Python exception, modelled by `Except`. -/
structure QueryEnv (V : Type) where
  embed_query : Str → Except Str V
  store_query : V → Nat → Except Str (List Str × List Meta)
  system_prompt : Except Str Str
  llm : Str → Except Str Str

/-- The chunk dictionaries `query` rebuilds from the store results
(`enumerate(zip(results['documents'][0], results['metadatas'][0]))`). -/
def query_chunks (docs : List Str) (metas : List Meta) : List QChunk :=
  (docs.zip metas).enum.map (fun p =>
    { text := p.2.1
      «section» := p.2.2.«section»
      page := p.2.2.page
      «type» := p.2.2.«type»
      chunk_id := p.1 })

/-- `DocumentQA._build_context`. -/
def build_context (chunks : List QChunk) : Str :=
  List.intercalate (str "\n\n") (chunks.enum.map (fun p =>
    str "[Chunk " ++ str (toString p.1) ++ str "] (Section: " ++ p.2.«section»
      ++ str ", Page: " ++ p.2.page ++ str ")\n" ++ p.2.text))

/-- `DocumentQA._generate_answer`: read the system prompt file, compose the
grounded prompt, call the model; any failure propagates to `query`'s handler. -/
def generate_answer {V : Type} (env : QueryEnv V) (question context : Str) :
    Except Str Str := do
  let sys ← env.system_prompt
  env.llm (sys ++ str "\n\n"
    ++ str "Question: " ++ question
    ++ str "\n\nContext from Apple's 10-K filing:\n" ++ context
    ++ str "\n\nPlease answer the question based on the context provided. Reference specific chunks using [Chunk X] notation when citing information.")

/-- The body of the `try:` block of `DocumentQA.query` (lines 341-374). -/
def query_body {V : Type} (env : QueryEnv V) (question : Str) (top_k : Nat) :
    Except Str DocResult := do
  let qe ← env.embed_query question
  let rs ← env.store_query qe top_k
  if rs.1.isEmpty then
    return { answer := str "No relevant information found in the 10-K filing."
             citations := [] }
  else
    let chunks := query_chunks rs.1 rs.2
    let answer ← generate_answer env question (build_context chunks)
    return { answer := answer, citations := extract_citations answer chunks }

/-- `DocumentQA.query`: total — every failure inside the body is caught and
converted to an error-text result with no citations. -/
def query {V : Type} (env : QueryEnv V) (question : Str) (top_k : Nat) : DocResult :=
  match query_body env question top_k with
  | .ok r => r
  | .error e => { answer := str "Error querying document: " ++ e, citations := [] }

end DocQA

namespace Agent

/-! ### `FinancialAgent` orchestration (src/agent.py lines 66-265) -/

/-- The `Response` dictionary `answer_query` returns. -/
structure Response where
  answer : Str
  citations : List Citation
  tools_used : List Str
  errors : List Str
  plan : Str
deriving DecidableEq, Repr

/-- The agent's external effects: the two tools (each call may raise, i.e.
return `.error`), the generative model used for multi-source synthesis, and
the system prompt loaded at construction (`""` when the file is missing). -/
structure ToolEnv where
  doc_qa : Str → Except Str DocResult
  tavily : Str → Except Str SearchResult
  llm : Str → Except Str Str
  system_prompt : Str

/-- The `results`/`errors` accumulator of `_execute_tools` (`results` is a
dict with at most the keys `document_qa` and `tavily`). -/
structure ToolResults where
  doc_qa : Option DocResult
  tavily : Option SearchResult
  errors : List Str
deriving DecidableEq, Repr

/-- One iteration of the tool loop in `_execute_tools`: run the named tool,
record its result, or append `"{tool_name} failed: {e}"` on failure.
Unrecognized names do nothing. -/
def execute_tool_step (env : ToolEnv) (query : Str) (acc : ToolResults)
    (tool_name : Str) : ToolResults :=
  if tool_name = str "document_qa" then
    match env.doc_qa query with
    | .ok r => { acc with doc_qa := some r }
    | .error e => { acc with errors := acc.errors ++ [str "document_qa failed: " ++ e] }
  else if tool_name = str "tavily" then
    match env.tavily query with
    | .ok r => { acc with tavily := some r }
    | .error e => { acc with errors := acc.errors ++ [str "tavily failed: " ++ e] }
  else acc

/-- `FinancialAgent._execute_tools` (lines 156-191): run every selected tool;
`if not results and errors: raise Exception(f"All tools failed: ...")`. -/
def execute_tools (env : ToolEnv) (query : Str) (tools : List Str) :
    Except Str ToolResults :=
  let r := tools.foldl (execute_tool_step env query) ⟨none, none, []⟩
  if r.doc_qa.isNone && r.tavily.isNone && !r.errors.isEmpty then
    .error (str "All tools failed: " ++ List.intercalate (str "; ") r.errors)
  else
    .ok r

/-- The synthesis prompt built in `_synthesize_answer`. -/
def synthesis_prompt (query combined_context : Str) : Str :=
  str "Question: " ++ query
    ++ str "\n\nInformation gathered from multiple sources:\n\n" ++ combined_context
    ++ str "\n\nPlease synthesize this information into a comprehensive answer that:\n1. Directly answers the question\n2. Combines insights from both sources where relevant\n3. Clearly distinguishes between historical data (from 10-K) and current data (from web)\n4. Provides any relevant comparisons or calculations\n\nYour answer:"

/-- `FinancialAgent._synthesize_answer` (lines 193-265): collect per-tool
answers and citations, synthesize with the model when both tools answered
(falling back to concatenation when the model call fails), and assemble the
response dictionary. -/
def synthesize_answer (env : ToolEnv) (query : Str) (tr : ToolResults) : Response :=
  let all_answers :=
    (match tr.doc_qa with
     | some r => [str "From 10-K Document:\n" ++ r.answer]
     | none => [])
    ++ (match tr.tavily with
        | some r => [str "From Web Search:\n" ++ r.answer]
        | none => [])
  let all_citations :=
    (match tr.doc_qa with | some r => r.citations | none => [])
      ++ (match tr.tavily with | some r => r.sources | none => [])
  let tools_used :=
    (match tr.doc_qa with | some _ => [str "Document QA"] | none => [])
      ++ (match tr.tavily with | some _ => [str "Tavily Search"] | none => [])
  let final_answer :=
    if 1 < all_answers.length then
      match env.llm (env.system_prompt ++ str "\n\n"
          ++ synthesis_prompt query (List.intercalate (str "\n\n") all_answers)) with
      | .ok t => t
      | .error _ => List.intercalate (str "\n\n---\n\n") all_answers
    else
      match all_answers with
      | a :: _ => a
      | [] => str "No answer generated."
  { answer := final_answer
    citations := all_citations
    tools_used := tools_used
    errors := tr.errors
    plan := create_plan query }

/-- `FinancialAgent.answer_query` (lines 66-103): plan, route, execute,
synthesize; the outermost `except` converts the only raising step
(`_execute_tools`) into the degraded error response. Total by construction:
no exception escapes. -/
def answer_query (env : ToolEnv) (query : Str) : Response :=
  match execute_tools env query (route_tools query) with
  | .ok tr => synthesize_answer env query tr
  | .error e =>
    { answer := str "Error processing query: " ++ e
      citations := []
      tools_used := []
      errors := [e]
      plan := str "Error occurred" }

end Agent

/-! ## Bridging lemmas -/

/-- `strContains hay needle` decides substring (infix) containment. -/
theorem strContains_iff {hay needle : Str} :
    strContains hay needle = true ↔ needle <:+: hay := by
  induction hay with
  | nil =>
    simp [strContains, List.isEmpty_iff, List.infix_nil]
  | cons c t ih =>
    simp [strContains, List.infix_cons_iff, ih]

/-! ## Claims -/

/-- C1: for every query string `q`, the router returns exactly both tools when
the lowercased `q` contains a current-data keyword and a document-only
keyword, only the web tool when it contains a current-data keyword and no
document-only keyword, and only the document tool in every other case; in
particular the returned tool list is never empty. -/
theorem c1_route_tools_decision_table (q : Str) :
    Agent.route_tools q =
      (if ∃ kw ∈ Agent.current_data_keywords, kw <:+: lower q then
        if ∃ kw ∈ Agent.document_only_keywords, kw <:+: lower q then
          [str "document_qa", str "tavily"]
        else [str "tavily"]
      else [str "document_qa"])
    ∧ Agent.route_tools q ≠ [] := by
  have hc : Agent.needs_current_data q = true
      ↔ ∃ kw ∈ Agent.current_data_keywords, kw <:+: lower q := by
    simp [Agent.needs_current_data, List.any_eq_true, strContains_iff]
  have hd : Agent.mentions_document q = true
      ↔ ∃ kw ∈ Agent.document_only_keywords, kw <:+: lower q := by
    simp [Agent.mentions_document, List.any_eq_true, strContains_iff]
  by_cases h1 : Agent.needs_current_data q = true
    <;> by_cases h2 : Agent.mentions_document q = true
  · rw [if_pos (hc.mp h1), if_pos (hd.mp h2)]
    constructor
    · simp [Agent.route_tools, h1, h2]
    · simp [Agent.route_tools, h1, h2]
  · rw [if_pos (hc.mp h1), if_neg (fun hq => h2 (hd.mpr hq))]
    have h2' : Agent.mentions_document q = false := by
      revert h2; cases Agent.mentions_document q <;> simp
    constructor
    · simp [Agent.route_tools, h1, h2']
    · simp [Agent.route_tools, h1, h2']
  · rw [if_neg (fun hq => h1 (hc.mpr hq))]
    have h1' : Agent.needs_current_data q = false := by
      revert h1; cases Agent.needs_current_data q <;> simp
    constructor
    · simp [Agent.route_tools, h1']
    · simp [Agent.route_tools, h1']
  · rw [if_neg (fun hq => h1 (hc.mpr hq))]
    have h1' : Agent.needs_current_data q = false := by
      revert h1; cases Agent.needs_current_data q <;> simp
    constructor
    · simp [Agent.route_tools, h1']
    · simp [Agent.route_tools, h1']

/-- C10: the planner and the router test different keyword lists, so the plan
text and the tool route can disagree: on "compare revenue growth" the planner
announces a web search while the router selects the document tool only. -/
theorem c10_plan_route_disagree :
    Agent.create_plan (str "compare revenue growth")
        = str "Plan: Search web for current market information"
    ∧ Agent.route_tools (str "compare revenue growth") = [str "document_qa"] := by
  constructor <;> decide

/-- C8: the web search adapter never raises: an HTTP 429 response yields the
fixed rate-limit message, a timeout the fixed timeout message, and any other
request error a message embedding the error text — each with an empty source
list, and the three messages are pairwise distinct. -/
theorem c8_tavily_failure_modes (d : List Tavily.RawResult) (m : Str) :
    Tavily.search (.resp 429 d)
        = { answer := str "Rate limit exceeded for web search. Please try again later."
            sources := [] }
    ∧ Tavily.search .timeout
        = { answer := str "Web search timed out. Please try again.", sources := [] }
    ∧ Tavily.search (.reqError m)
        = { answer := str "Web search error: " ++ m, sources := [] }
    ∧ (Tavily.search (.resp 429 d)).answer ≠ (Tavily.search .timeout).answer
    ∧ (Tavily.search (.resp 429 d)).answer ≠ (Tavily.search (.reqError m)).answer
    ∧ (Tavily.search .timeout).answer ≠ (Tavily.search (.reqError m)).answer := by
  refine ⟨rfl, rfl, rfl, ?_, ?_, ?_⟩
  · show str "Rate limit exceeded for web search. Please try again later."
        ≠ str "Web search timed out. Please try again."
    decide
  · show str "Rate limit exceeded for web search. Please try again later."
        ≠ str "Web search error: " ++ m
    intro h
    rw [show str "Rate limit exceeded for web search. Please try again later."
          = 'R' :: str "ate limit exceeded for web search. Please try again later." from rfl,
        show str "Web search error: " ++ m = 'W' :: (str "eb search error: " ++ m) from rfl] at h
    injection h with h1 _
    exact absurd h1 (by decide)
  · show str "Web search timed out. Please try again." ≠ str "Web search error: " ++ m
    intro h
    rw [show str "Web search timed out. Please try again."
          = str "Web search " ++ str "timed out. Please try again." from rfl,
        show str "Web search error: " ++ m
          = str "Web search " ++ (str "error: " ++ m) from rfl] at h
    have h2 := List.append_cancel_left h
    rw [show str "timed out. Please try again." = 't' :: str "imed out. Please try again." from rfl,
        show str "error: " ++ m = 'e' :: (str "rror: " ++ m) from rfl] at h2
    injection h2 with h1 _
    exact absurd h1 (by decide)

/-- C2: whenever every tool the router selected for `q` fails,
`answer_query` still returns (it is total by construction, so no exception
escapes it) a response with empty `tools_used`, non-empty `errors`, and an
answer string containing the aggregated error description. -/
theorem c2_all_tools_fail (env : Agent.ToolEnv) (q : Str)
    (hdoc : str "document_qa" ∈ Agent.route_tools q → ∃ e, env.doc_qa q = .error e)
    (htav : str "tavily" ∈ Agent.route_tools q → ∃ e, env.tavily q = .error e) :
    (Agent.answer_query env q).tools_used = []
    ∧ (Agent.answer_query env q).errors ≠ []
    ∧ ∀ m ∈ (Agent.answer_query env q).errors,
        m <:+: (Agent.answer_query env q).answer := by
  have hne : ¬(str "tavily" = str "document_qa") := by decide
  suffices h : ∃ agg, Agent.execute_tools env q (Agent.route_tools q) = .error agg by
    obtain ⟨agg, hagg⟩ := h
    refine ⟨by simp [Agent.answer_query, hagg], by simp [Agent.answer_query, hagg], ?_⟩
    simp only [Agent.answer_query, hagg, List.mem_singleton]
    intro m hm
    subst hm
    exact ⟨str "Error processing query: ", [], by simp⟩
  by_cases h1 : Agent.needs_current_data q = true
    <;> by_cases h2 : Agent.mentions_document q = true
  · have hr : Agent.route_tools q = [str "document_qa", str "tavily"] := by
      simp [Agent.route_tools, h1, h2]
    obtain ⟨e1, he1⟩ := hdoc (by rw [hr]; simp)
    obtain ⟨e2, he2⟩ := htav (by rw [hr]; simp)
    cases hex : Agent.execute_tools env q (Agent.route_tools q) with
    | error e => exact ⟨e, rfl⟩
    | ok tr =>
      rw [hr] at hex
      simp [Agent.execute_tools, Agent.execute_tool_step, he1, he2, hne] at hex
  · have h2' : Agent.mentions_document q = false := by
      revert h2; cases Agent.mentions_document q <;> simp
    have hr : Agent.route_tools q = [str "tavily"] := by
      simp [Agent.route_tools, h1, h2']
    obtain ⟨e2, he2⟩ := htav (by rw [hr]; simp)
    cases hex : Agent.execute_tools env q (Agent.route_tools q) with
    | error e => exact ⟨e, rfl⟩
    | ok tr =>
      rw [hr] at hex
      simp [Agent.execute_tools, Agent.execute_tool_step, he2, hne] at hex
  · have h1' : Agent.needs_current_data q = false := by
      revert h1; cases Agent.needs_current_data q <;> simp
    have hr : Agent.route_tools q = [str "document_qa"] := by
      simp [Agent.route_tools, h1']
    obtain ⟨e1, he1⟩ := hdoc (by rw [hr]; simp)
    cases hex : Agent.execute_tools env q (Agent.route_tools q) with
    | error e => exact ⟨e, rfl⟩
    | ok tr =>
      rw [hr] at hex
      simp [Agent.execute_tools, Agent.execute_tool_step, he1] at hex
  · have h1' : Agent.needs_current_data q = false := by
      revert h1; cases Agent.needs_current_data q <;> simp
    have hr : Agent.route_tools q = [str "document_qa"] := by
      simp [Agent.route_tools, h1']
    obtain ⟨e1, he1⟩ := hdoc (by rw [hr]; simp)
    cases hex : Agent.execute_tools env q (Agent.route_tools q) with
    | error e => exact ⟨e, rfl⟩
    | ok tr =>
      rw [hr] at hex
      simp [Agent.execute_tools, Agent.execute_tool_step, he1] at hex

/-- A tool environment in which both tools always raise. -/
def failEnv : Agent.ToolEnv :=
  { doc_qa := fun _ => .error (str "boom")
    tavily := fun _ => .error (str "net down")
    llm := fun _ => .ok (str "ignored")
    system_prompt := str "" }

/-- C2 witness: the all-tools-fail theorem at a concrete environment and
query. -/
theorem c2_all_tools_fail_witness :
    (Agent.answer_query failEnv (str "")).tools_used = []
    ∧ (Agent.answer_query failEnv (str "")).errors ≠ []
    ∧ ∀ m ∈ (Agent.answer_query failEnv (str "")).errors,
        m <:+: (Agent.answer_query failEnv (str "")).answer :=
  c2_all_tools_fail failEnv (str "")
    (fun _ => ⟨str "boom", rfl⟩) (fun _ => ⟨str "net down", rfl⟩)

/-- Reduction of the `initialize` embedding on a present collection. -/
theorem initDoc_some_eq {V : Type} (embed : Str → V) (sections : List DocQA.Section)
    (l : List (DocQA.IndexEntry V)) :
    DocQA.initDoc embed sections ⟨some l⟩
      = if 0 < l.length then .ok ⟨some l⟩
        else DocQA.process_document embed sections ⟨some l⟩ := rfl

/-- Reduction of the `initialize` embedding on an absent collection. -/
theorem initDoc_none_eq {V : Type} (embed : Str → V) (sections : List DocQA.Section) :
    DocQA.initDoc embed sections ⟨none⟩
      = DocQA.process_document embed sections ⟨none⟩ := rfl

/-- C4: index build is idempotent. If the persisted collection exists and is
non-empty, `initialize` returns the state unchanged (no parsing, chunking,
embedding or adding happens — the early return is taken before any of them);
and running `initialize` twice is the same as running it once. -/
theorem c4_initDoc_idempotent {V : Type} (embed : Str → V)
    (sections : List DocQA.Section) (st : DocQA.QAState V)
    (c : List (DocQA.IndexEntry V)) :
    (st.collection = some c → c ≠ [] → DocQA.initDoc embed sections st = .ok st)
    ∧ (DocQA.initDoc embed sections st >>= DocQA.initDoc embed sections)
        = DocQA.initDoc embed sections st := by
  constructor
  · intro h1 h2
    have hlen : 0 < c.length := List.length_pos.mpr h2
    simp [DocQA.initDoc, h1, hlen]
  · have hproc : ∀ (st'' : DocQA.QAState V) st',
        DocQA.process_document embed sections st'' = .ok st' →
        DocQA.initDoc embed sections st' = .ok st' := by
      intro st'' st' hp
      unfold DocQA.process_document at hp
      split at hp
      · simp at hp
      · rename_i hch
        simp only [Except.ok.injEq] at hp
        subst hp
        have hpos : 0 < ((match st''.collection with | some c => c | none => [])
            ++ ((DocQA.chunk_document sections).enum.map
                  (fun p => DocQA.entry_of embed p.1 p.2))).length := by
          simp only [List.length_append, List.length_map, List.enum_length]
          omega
        rw [initDoc_some_eq, if_pos hpos]
    have key : ∀ st', DocQA.initDoc embed sections st = .ok st' →
        DocQA.initDoc embed sections st' = .ok st' := by
      intro st' hi
      obtain ⟨coll⟩ := st
      cases coll with
      | none =>
        rw [initDoc_none_eq] at hi
        exact hproc ⟨none⟩ st' hi
      | some c' =>
        rw [initDoc_some_eq] at hi
        by_cases hl : 0 < c'.length
        · rw [if_pos hl] at hi
          injection hi with h
          subst h
          rw [initDoc_some_eq, if_pos hl]
        · rw [if_neg hl] at hi
          exact hproc _ st' hi
    cases hi : DocQA.initDoc embed sections st with
    | error e => rfl
    | ok st' =>
      show DocQA.initDoc embed sections st' = .ok st'
      exact key st' hi

/-- A one-entry persisted state over the trivial embedding type, for the C4
witness. -/
def oneEntryState : DocQA.QAState Unit :=
  ⟨some [{ id := str "chunk_0", embedding := (), document := str "t"
           «section» := str "Document Section 1", page := str "1"
           «type» := str "text", chunk_id := str "0" }]⟩

/-- C4 witness: the idempotence theorem at a concrete non-empty persisted
state (the early return leaves it unchanged). -/
theorem c4_initDoc_idempotent_witness :
    DocQA.initDoc (fun _ => ()) [] oneEntryState = .ok oneEntryState
    ∧ (DocQA.initDoc (fun _ => ()) [] oneEntryState
        >>= DocQA.initDoc (fun _ => ())  [])
        = DocQA.initDoc (fun _ => ()) [] oneEntryState := by
  have h := c4_initDoc_idempotent (fun _ => ()) [] oneEntryState
    [{ id := str "chunk_0", embedding := (), document := str "t"
       «section» := str "Document Section 1", page := str "1"
       «type» := str "text", chunk_id := str "0" }]
  exact ⟨h.1 rfl (by decide), h.2⟩

/-- Placeholder chunk for total indexing in the C3 statement (never selected:
the tag filter guarantees the index is in range). -/
def defaultQChunk : DocQA.QChunk :=
  { text := [], «section» := [], page := [], «type» := [], chunk_id := 0 }

/-- The `filterMap` of `_extract_citations` is a `map` over the in-range tags. -/
theorem filterMap_cite_eq (chunks : List DocQA.QChunk) (l : List Str) :
    l.filterMap (fun ref =>
      match chunks.get? (DocQA.digits_to_nat ref) with
      | some c => some (DocQA.cite_of c)
      | none => none)
    = (l.filter (fun ds => decide (DocQA.digits_to_nat ds < chunks.length))).map
        (fun ds => DocQA.cite_of
          ((chunks.get? (DocQA.digits_to_nat ds)).getD defaultQChunk)) := by
  induction l with
  | nil => rfl
  | cons ds l ih =>
    simp only [List.filterMap_cons, List.filter_cons]
    cases hg : chunks.get? (DocQA.digits_to_nat ds) with
    | none =>
      have hlen : ¬(DocQA.digits_to_nat ds < chunks.length) := by
        have := List.get?_eq_none.mp hg
        omega
      simp only [List.get?_eq_getElem?] at ih
      simp [hlen, ih]
    | some c =>
      have hlt : DocQA.digits_to_nat ds < chunks.length := by
        obtain ⟨h, -⟩ := List.get?_eq_some.mp hg
        exact h
      simp only [List.get?_eq_getElem?] at ih hg
      have hc : chunks[DocQA.digits_to_nat ds] = c := by
        rw [List.getElem?_eq_getElem hlt] at hg
        exact Option.some.inj hg
      simp [hg, hlt, ih, hc]

/-- C3: citation extraction deduplicates tags — the returned list is one
citation per distinct in-range ordinal tag found in the answer — and a tag
whose index is outside `[0, chunks.length)` is silently dropped, so no
returned citation refers outside the retrieved chunk list. -/
theorem c3_extract_citations_sound (answer : Str) (chunks : List DocQA.QChunk) :
    DocQA.extract_citations answer chunks
      = (((DocQA.find_chunk_refs answer).dedup).filter
          (fun ds => decide (DocQA.digits_to_nat ds < chunks.length))).map
          (fun ds => DocQA.cite_of
            ((chunks.get? (DocQA.digits_to_nat ds)).getD defaultQChunk))
    ∧ ((DocQA.find_chunk_refs answer).dedup).Nodup := by
  constructor
  · exact filterMap_cite_eq chunks ((DocQA.find_chunk_refs answer).dedup)
  · exact List.nodup_dedup _

/-- Chunk texts produced by the text-section loop: the stride windows,
filtered to those of at least 50 words, joined by single spaces. -/
theorem text_chunks_map_text (name : Str) (page : Option Nat) (refs : List CrossRef)
    (words : List Str) (curId : Nat) (starts : List Nat) :
    (DocQA.text_chunks name page refs words curId starts).map (fun c => c.text)
      = ((starts.map (fun i => (words.drop i).take DocQA.chunk_size)).filter
          (fun w => decide (50 ≤ w.length))).map DocQA.joinSpace := by
  induction starts generalizing curId with
  | nil => rfl
  | cons i is ih =>
    simp only [DocQA.text_chunks, List.map_cons, List.filter_cons]
    by_cases h : ((words.drop i).take DocQA.chunk_size).length < 50
    · rw [if_pos h, ih,
        decide_eq_false (by omega : ¬(50 ≤ ((words.drop i).take DocQA.chunk_size).length))]
      simp
    · rw [if_neg h,
        decide_eq_true (by omega : 50 ≤ ((words.drop i).take DocQA.chunk_size).length)]
      simp [ih]

/-- Chunk ids produced by the text-section loop are consecutive from `curId`. -/
theorem text_chunks_map_id (name : Str) (page : Option Nat) (refs : List CrossRef)
    (words : List Str) (curId : Nat) (starts : List Nat) :
    (DocQA.text_chunks name page refs words curId starts).map (fun c => c.chunk_id)
      = List.range' curId (DocQA.text_chunks name page refs words curId starts).length := by
  induction starts generalizing curId with
  | nil => rfl
  | cons i is ih =>
    simp only [DocQA.text_chunks]
    split
    · exact ih _
    · simp only [List.map_cons, List.length_cons, List.range'_succ]
      simp [ih]

/-- Chunk ids produced for one section are consecutive from `k`. -/
theorem section_chunks_map_id (k : Nat) (s : DocQA.Section) :
    (DocQA.section_chunks k s).map (fun c => c.chunk_id)
      = List.range' k (DocQA.section_chunks k s).length := by
  unfold DocQA.section_chunks
  split
  · rfl
  · exact text_chunks_map_id _ _ _ _ _ _

/-- Chunk ids across the whole section loop are consecutive from `k`. -/
theorem chunk_document_go_map_id (k : Nat) (ss : List DocQA.Section) :
    (DocQA.chunk_document_go k ss).map (fun c => c.chunk_id)
      = List.range' k (DocQA.chunk_document_go k ss).length := by
  induction ss generalizing k with
  | nil => rfl
  | cons s ss ih =>
    simp only [DocQA.chunk_document_go, List.map_append, List.length_append]
    rw [ih, section_chunks_map_id, List.range'_append_1]
    congr 1
    omega

/-- Modelled from the spec (§4.2 Chunker): table sections become exactly one
chunk holding the whole section content; text sections are split into
500-word windows taken at stride 400 (window size minus overlap 100), and
windows of fewer than 50 words are discarded; a text chunk's text is its
window joined by single spaces. -/
def specSectionTexts (s : DocQA.Section) : List Str :=
  if s.«type» = str "table" then [s.content]
  else
    ((((List.range (((DocQA.splitWords s.content).length + 399) / 400)).map (· * 400)).map
        (fun i => ((DocQA.splitWords s.content).drop i).take 500)).filter
        (fun w => decide (50 ≤ w.length))).map DocQA.joinSpace

/-- Chunk texts for one section match the spec's description. -/
theorem section_chunks_map_text (k : Nat) (s : DocQA.Section) :
    (DocQA.section_chunks k s).map (fun c => c.text) = specSectionTexts s := by
  unfold DocQA.section_chunks specSectionTexts
  split
  · rfl
  · rw [text_chunks_map_text]
    have h399 : ∀ L : Nat, L + 400 - 1 = L + 399 := fun L => by omega
    simp [DocQA.pyRangeStep, DocQA.chunk_size, DocQA.overlap, h399]

/-- Chunk texts across the whole section loop match the spec's description. -/
theorem chunk_document_go_map_text (k : Nat) (ss : List DocQA.Section) :
    (DocQA.chunk_document_go k ss).map (fun c => c.text)
      = ss.flatMap specSectionTexts := by
  induction ss generalizing k with
  | nil => rfl
  | cons s ss ih =>
    simp only [DocQA.chunk_document_go, List.map_append, List.flatMap_cons]
    rw [ih, section_chunks_map_text]

/-- C5: for every section list, each table section yields exactly one chunk
(its full content, never split), and each text section yields one chunk per
500-word window taken at stride 400 (window size minus overlap 100) whose
word count is at least 50 — windows of fewer than 50 words yield no chunk. -/
theorem c5_chunker_windows (sections : List DocQA.Section) :
    (DocQA.chunk_document sections).map (fun c => c.text)
      = sections.flatMap specSectionTexts :=
  chunk_document_go_map_text 0 sections

/-- C6: chunk ids are assigned sequentially in document order — the list of
`chunk_id` values of an ingestion run is exactly `0, 1, ..., n-1` (unique and
contiguous from `0`); the assignment is a pure function of the input, hence
deterministic across identical runs. -/
theorem c6_chunk_ids_contiguous (sections : List DocQA.Section) :
    (DocQA.chunk_document sections).map (fun c => c.chunk_id)
      = List.range ((DocQA.chunk_document sections).length) := by
  rw [List.range_eq_range']
  exact chunk_document_go_map_id 0 sections

/-- A retrieved chunk whose text contains a cross-reference match
("See Note"), for C7. -/
def c7chunk : DocQA.QChunk :=
  { text := str "Deferred revenue is discussed further. See Note 5 of the notes."
    «section» := str "Document Section 1"
    page := str "1"
    «type» := str "text"
    chunk_id := 0 }

/-- C7 (code bug): a document citation is supposed to carry the
cross-references detected in its originating chunk, and the chunker does
detect them; but the collection metadata written by the indexer has no
cross-references field, so the chunk dictionaries rebuilt at query time lack
the key and `chunk.get('cross_references', [])` always defaults to `[]`.
Here the cited chunk's text contains the match "See Note", yet the returned
citation's cross-reference list is empty. -/
theorem c7_cross_references_lost :
    (DocQA.extract_citations (str "[Chunk 0]") [c7chunk]).map
        (fun c => c.cross_references) = [[]]
    ∧ (DocQA.findCrossRefs c7chunk.text).filter
        (fun r => strContains c7chunk.text r.full_text) ≠ [] := by
  constructor
  · rfl
  · decide

/-- A query environment (over a trivial embedding type) whose query-embedding
step always raises, for C9. -/
def c9env : DocQA.QueryEnv Unit :=
  { embed_query := fun _ => .error (str "boom")
    store_query := fun _ _ => .ok ([], [])
    system_prompt := .ok (str "")
    llm := fun _ => .ok (str "") }

/-- C9 counterexample: when the embedding step fails, `query` does return
(with empty citations) — but its answer is the error text
"Error querying document: boom", not a "no information found"-style answer:
it does not contain the phrase "no information found" even case-insensitively. -/
theorem c9_counterexample :
    (DocQA.query c9env (str "What are the risk factors?") 5).citations = []
    ∧ (DocQA.query c9env (str "What are the risk factors?") 5).answer
        = str "Error querying document: boom"
    ∧ strContains (lower (DocQA.query c9env (str "What are the risk factors?") 5).answer)
        (str "no information found") = false := by
  refine ⟨rfl, rfl, ?_⟩
  decide

/-- C9 (amended): any failure inside the query body — embedding, store
lookup, prompt read or model call — does not propagate out of `query`: the
result has empty citations and an answer string embedding the error text
(`"Error querying document: " ++ e`); the fixed "No relevant information
found" answer belongs to the empty-retrieval path, not the failure path. -/
theorem c9_query_degrades {V : Type} (env : DocQA.QueryEnv V)
    (question : Str) (top_k : Nat) :
    (∀ e, env.embed_query question = .error e →
      DocQA.query env question top_k
        = { answer := str "Error querying document: " ++ e, citations := [] })
    ∧ (∀ e, DocQA.query_body env question top_k = .error e →
      DocQA.query env question top_k
        = { answer := str "Error querying document: " ++ e, citations := [] }) := by
  constructor
  · intro e he
    have hb : DocQA.query_body env question top_k = .error e := by
      unfold DocQA.query_body
      rw [he]
      rfl
    unfold DocQA.query
    rw [hb]
  · intro e he
    unfold DocQA.query
    rw [he]

/-- C9 witness: the amended degradation theorem at the concrete failing
environment. -/
theorem c9_query_degrades_witness :
    DocQA.query c9env (str "q") 5
      = { answer := str "Error querying document: " ++ str "boom", citations := [] } :=
  (c9_query_degrades c9env (str "q") 5).1 (str "boom") rfl
